import Mathlib

/-!
Verification of the GetStok FMS FOTA resumable chunked firmware-transfer
protocol, embedded from the TCP server with length prefixing
(`server` variant, `net.createServer` handler) and the SIM800L device
client (`FotaSIM800L.cpp`).

Bytes are modelled as `Nat` (each in `[0, 256)` where it matters), byte
buffers as `List Nat`, JS `Map`s as insertion-ordered association lists,
and JS numbers as `Nat` where the program only ever produces
non-negative integers, or as `ℚ` where fractional intermediate values
can arise (the adaptive chunk-size computation).
-/

namespace Fota

/-! ### Configuration constants (top of the server file) -/

def DEFAULT_CHUNK_SIZE : Nat := 512
def MAX_CHUNK_SIZE : Nat := 1024
def MIN_CHUNK_SIZE : Nat := 128

/-- `SESSION_TIMEOUT = 45 * 60 * 1000` ms, from the cleanup `setInterval`. -/
def SESSION_TIMEOUT : Nat := 45 * 60 * 1000

/-- `INTERRUPTED_TIMEOUT = 10 * 60 * 1000` ms, from the cleanup `setInterval`. -/
def INTERRUPTED_TIMEOUT : Nat := 10 * 60 * 1000

/-! ### CRC16 (`calculateCRC16`)

`crc >> 1` on a value that stays below `2^16` is `crc / 2`; `crc & 1`
is `crc % 2`.  The accumulator is XORed with each byte, then put through
eight shift rounds; the final `& 0xFFFF` mask of the source is kept. -/

/-- One inner-loop round of `calculateCRC16`: shift right, XOR `0xA001`
when the low bit was set. -/
def crc16Round (crc : Nat) : Nat :=
  if crc % 2 = 1 then (crc / 2) ^^^ 0xA001 else crc / 2

/-- Per-byte step of `calculateCRC16`: `crc ^= byte` then 8 rounds. -/
def crc16Byte (crc b : Nat) : Nat :=
  (List.range 8).foldl (fun c _ => crc16Round c) (crc ^^^ b)

/-- `calculateCRC16`: initial value `0xFFFF`, fold over the buffer,
result masked to 16 bits. -/
def calculateCRC16 (data : List Nat) : Nat :=
  (data.foldl crc16Byte 0xFFFF) &&& 0xFFFF

/-! ### Bounds-checked chunk read (`getFirmwareChunk`)

The JS function `stat`s the file, throws (hence returns `null` through
its `catch`) when `offset >= totalSize`, otherwise reads
`actualSize = min(requestedSize, totalSize - offset)` bytes starting at
`offset`.  The file is modelled as its byte list. -/

structure ChunkData where
  chunk : List Nat
  actualSize : Nat
  totalSize : Nat
  deriving Repr, DecidableEq

def getFirmwareChunk (file : List Nat) (offset requestedSize : Nat) :
    Option ChunkData :=
  let totalSize := file.length
  if offset ≥ totalSize then
    none
  else
    let actualSize := min requestedSize (totalSize - offset)
    some ⟨(file.drop offset).take actualSize, actualSize, totalSize⟩

/-! ### Theorems for claims C6 and C2 -/

set_option maxRecDepth 8000

/-- Claim C6, counterexample: the code's CRC of the ASCII bytes of the
digit string one through nine is `0x4B37`, not the CRC-16/ARC check
value `0xBB3D` the claim states; with initial value `0xFFFF` the
algorithm is the MODBUS variant of the family, whose check value
differs from ARC's. -/
theorem crc16_not_arc_vector :
    calculateCRC16 [49, 50, 51, 52, 53, 54, 55, 56, 57] = 0x4B37 ∧
    (0x4B37 : Nat) ≠ 0xBB3D := by
  exact ⟨by decide, by decide⟩

/-- Claim C6, amended: `calculateCRC16` is the bit-serial reflected
CRC-16 with polynomial `0xA001` and initial value `0xFFFF` (the
CRC-16/MODBUS member of the ARC family, not ARC itself): each input
byte is XORed into the accumulator followed by eight iterations of
shift-right with conditional XOR of `0xA001` when the low bit is set,
and the result is masked to 16 bits; the ASCII bytes of the digit
string one through nine map to the MODBUS check value `0x4B37`. -/
theorem crc16_modbus_reference_vector :
    calculateCRC16 [49, 50, 51, 52, 53, 54, 55, 56, 57] = 0x4B37 ∧
    calculateCRC16 [] = 0xFFFF ∧
    (∀ c, crc16Round c = if c % 2 = 1 then (c / 2) ^^^ 0xA001 else c / 2) := by
  refine ⟨by decide, by decide, fun c => rfl⟩

/-- Claim C2: for `offset < totalSize` the chunk read succeeds with
`actualSize = min(requestedSize, totalSize - offset)` bytes, which are
exactly the file bytes at positions `[offset, offset + actualSize)`
(hence `offset + actualSize ≤ totalSize`); for `offset ≥ totalSize` it
is a hard error returning no bytes. -/
theorem getFirmwareChunk_bounds (file : List Nat) (offset requestedSize : Nat) :
    (offset < file.length →
      ∃ cd : ChunkData,
        getFirmwareChunk file offset requestedSize = some cd ∧
        cd.totalSize = file.length ∧
        cd.actualSize = min requestedSize (file.length - offset) ∧
        offset + cd.actualSize ≤ file.length ∧
        cd.chunk.length = cd.actualSize ∧
        (∀ i, i < cd.actualSize → cd.chunk[i]? = file[offset + i]?)) ∧
    (offset ≥ file.length →
      getFirmwareChunk file offset requestedSize = none) := by
  constructor
  · intro hlt
    refine ⟨⟨(file.drop offset).take (min requestedSize (file.length - offset)),
             min requestedSize (file.length - offset), file.length⟩, ?_, rfl, rfl, ?_, ?_, ?_⟩
    · simp [getFirmwareChunk, Nat.not_le_of_lt hlt]
    · dsimp only
      omega
    · dsimp only
      simp
    · intro i hi
      dsimp only at hi ⊢
      rw [List.getElem?_take_of_lt hi, List.getElem?_drop]
  · intro hge
    simp [getFirmwareChunk, hge]

/-- Witness for C2 at a concrete file and offsets: a five-byte file read
at offset 1 with requested size 3 yields bytes 2..4, and offset 5 is
rejected. -/
theorem getFirmwareChunk_bounds_witness :
    (1 < ([10, 20, 30, 40, 50] : List Nat).length ∧
      ∃ cd : ChunkData,
        getFirmwareChunk [10, 20, 30, 40, 50] 1 3 = some cd ∧
        cd.totalSize = 5 ∧ cd.actualSize = 3 ∧ 1 + cd.actualSize ≤ 5 ∧
        cd.chunk.length = cd.actualSize) ∧
    getFirmwareChunk [10, 20, 30, 40, 50] 5 3 = none := by
  have h := getFirmwareChunk_bounds [10, 20, 30, 40, 50] 1 3
  have h5 := getFirmwareChunk_bounds [10, 20, 30, 40, 50] 5 3
  refine ⟨⟨by decide, ?_⟩, h5.2 (by decide)⟩
  obtain ⟨cd, h1, h2, h3, h4, h5', -⟩ := h.1 (by decide)
  exact ⟨cd, h1, h2, by simpa using h3, by simpa using h4, h5'⟩

/-! ### Session model

`activeSessions` is a JS `Map` from session id to a session object;
iteration order is insertion order, `Map.set` of a fresh key appends and
of an existing key updates in place.  It is modelled as an
insertion-ordered list of `Session` records carrying their own id.
Timestamps (`Date.now()`) are milliseconds as `Nat`. -/

structure FirmwareInfo where
  name : String
  version : String
  size : Nat
  md5 : String
  sha256 : String
  deriving Repr, DecidableEq

/-- One entry of a session's `chunks` map: the record stored under key
`offset` by `handleFirmwareDownload`. -/
structure ChunkRecord where
  offset : Nat
  size : Nat
  crc : Nat
  timestamp : Nat
  deriving Repr, DecidableEq

structure Session where
  sessionId : String
  clientId : String
  deviceId : String
  firmwareInfo : FirmwareInfo
  startTime : Nat
  chunks : List (Nat × ChunkRecord)
  totalChunks : Nat
  downloadedChunks : Nat
  lastOffset : Nat
  completed : Bool
  interrupted : Bool
  interruptedAt : Nat
  deriving Repr, DecidableEq

/-- `Map.set` on the `chunks` map: replace in place when the key is
present, append otherwise. -/
def setChunk (m : List (Nat × ChunkRecord)) (k : Nat) (v : ChunkRecord) :
    List (Nat × ChunkRecord) :=
  if m.any (fun p => p.1 == k) then
    m.map (fun p => if p.1 == k then (k, v) else p)
  else
    m ++ [(k, v)]

/-- In-place mutation of the session object stored under `sid`
(JS object mutation through the map reference). -/
def updateSession (registry : List Session) (sid : String)
    (f : Session → Session) : List Session :=
  registry.map (fun s => if s.sessionId == sid then f s else s)

/-- The fresh session object built by `handleFirmwareCheck` when no
resumable session matches: `totalChunks = ceil(size / DEFAULT_CHUNK_SIZE)`,
`lastOffset = 0`, empty chunk map, not completed, not interrupted. -/
def newSession (sid clientId deviceId : String) (fw : FirmwareInfo)
    (now : Nat) : Session :=
  { sessionId := sid
    clientId := clientId
    deviceId := deviceId
    firmwareInfo := fw
    startTime := now
    chunks := []
    totalChunks := (fw.size + DEFAULT_CHUNK_SIZE - 1) / DEFAULT_CHUNK_SIZE
    downloadedChunks := 0
    lastOffset := 0
    completed := false
    interrupted := false
    interruptedAt := 0 }

/-- `handleFirmwareCheck` (server): scan `activeSessions` in insertion
order for the first session of this device that is not completed; if it
exists and its firmware version equals the catalog's current version,
resume it (clear `interrupted`, keep everything else); otherwise create
and insert a fresh session under the fresh id `newSid`.  Returns the new
registry and the session id answered to the device. -/
def handleFirmwareCheck (registry : List Session)
    (deviceId clientId : String) (fw : FirmwareInfo) (newSid : String)
    (now : Nat) : List Session × String :=
  match registry.find? (fun s => s.deviceId == deviceId && !s.completed) with
  | some s =>
    if s.firmwareInfo.version == fw.version then
      (updateSession registry s.sessionId (fun t => { t with interrupted := false }),
       s.sessionId)
    else
      (registry ++ [newSession newSid clientId deviceId fw now], newSid)
  | none =>
    (registry ++ [newSession newSid clientId deviceId fw now], newSid)

/-- The eviction condition of the cleanup `setInterval`:
`session.completed || (session.interrupted && now - interruptedAt >
INTERRUPTED_TIMEOUT) || now - startTime > SESSION_TIMEOUT`. -/
def shouldCleanup (now : Nat) (s : Session) : Bool :=
  s.completed ||
    (s.interrupted && decide (now - s.interruptedAt > INTERRUPTED_TIMEOUT)) ||
    decide (now - s.startTime > SESSION_TIMEOUT)

/-- The cleanup `setInterval` body: one pass over `activeSessions` in
iteration order, deleting every entry satisfying `shouldCleanup`. -/
def sweepSessions (now : Nat) (registry : List Session) : List Session :=
  registry.foldl (fun acc s => if shouldCleanup now s then acc else acc ++ [s]) []

/-- ASCII lowercasing of one codepoint, the effect of JS
`toLowerCase` on the ASCII range (digest strings are ASCII hex). -/
def lowerByte (b : Nat) : Nat := if 65 ≤ b ∧ b ≤ 90 then b + 32 else b

/-- `str.toLowerCase()` restricted to ASCII content, as the list of
lowercased codepoints. -/
def toLowerStr (s : String) : List Nat := s.data.map (fun c => lowerByte c.toNat)

/-- `handleFirmwareVerify` (server), acting on the session found for the
request's id: the expected digest is `sha256` when `hashType` is the
string sha256 and `md5` otherwise; the comparison lowercases both sides;
on a match the session's `completed` flag is set; otherwise the session
object is untouched.  Returns the updated session and the `verified`
flag of the response. -/
def handleFirmwareVerify (s : Session) (clientHash hashType : String) :
    Session × Bool :=
  let expectedHash := if hashType == "sha256" then s.firmwareInfo.sha256
                      else s.firmwareInfo.md5
  let isValid := toLowerStr clientHash == toLowerStr expectedHash
  (if isValid then { s with completed := true } else s, isValid)

/-- `cleanupConnection` (server), restricted to its effect on the
connection's current session: set `interrupted` and stamp
`interruptedAt`; the session is not deleted. -/
def cleanupConnection (s : Session) (now : Nat) : Session :=
  { s with interrupted := true, interruptedAt := now }

/-- `handleDownloadResume` (server), acting on the session found for the
request's id: rebind the session to the new connection's client id,
clear `interrupted`, and answer `lastOffset` and `downloadedChunks`
unchanged.  Returns the updated session and the two reported values. -/
def handleDownloadResume (s : Session) (clientId : String) :
    Session × Nat × Nat :=
  ({ s with clientId := clientId, interrupted := false },
   s.lastOffset, s.downloadedChunks)

/-! ### Claims about the session registry -/

/-- Claim C3, counterexample: `handleFirmwareCheck` scans for the first
non-completed session of the device regardless of version and, when the
version differs, appends a fresh session without removing the old one.
Concretely: after a check against firmware v1 and a check against v2,
the registry still holds two non-completed sessions for the device; a
third check against v2 again finds the v1 session first and appends a
second v2 session, so two non-completed sessions for the same
`(deviceId, firmware.version)` pair coexist. -/
theorem check_duplicate_pair_counterexample :
    (let fw1 : FirmwareInfo := ⟨"fw_v1.0.0.bin", "1.0.0", 2000, "m1", "h1"⟩
     let fw2 : FirmwareInfo := ⟨"fw_v2.0.0.bin", "2.0.0", 2000, "m2", "h2"⟩
     let r1 := (handleFirmwareCheck [] "dev" "cl" fw1 "sid1" 0).1
     let r2 := (handleFirmwareCheck r1 "dev" "cl" fw2 "sid2" 1).1
     let r3 := (handleFirmwareCheck r2 "dev" "cl" fw2 "sid3" 2).1
     (r2.filter (fun s => s.deviceId == "dev" && !s.completed)).length = 2 ∧
     (r3.filter (fun s =>
        s.deviceId == "dev" && s.firmwareInfo.version == "2.0.0" &&
          !s.completed)).length = 2) := by
  decide

/-- Claim C3, amended: a check whose first-listed non-completed session
for the device carries the same firmware version resumes that session,
clearing only its `interrupted` flag and leaving every other session in
place; a check resolving to a different version (or finding no
candidate) appends a fresh session for the new version while leaving
every existing session untouched — in particular the device's existing
non-completed session stays in the registry alongside the new one, so
more than one non-completed session per `(deviceId, firmware.version)`
pair is reachable. -/
theorem check_resume_or_append (registry : List Session)
    (deviceId clientId : String) (fw : FirmwareInfo) (newSid : String)
    (now : Nat) :
    (∀ s, registry.find? (fun t => t.deviceId == deviceId && !t.completed) = some s →
      (s.firmwareInfo.version = fw.version →
        (handleFirmwareCheck registry deviceId clientId fw newSid now).2 = s.sessionId ∧
        (handleFirmwareCheck registry deviceId clientId fw newSid now).1.length =
          registry.length ∧
        { s with interrupted := false } ∈
          (handleFirmwareCheck registry deviceId clientId fw newSid now).1 ∧
        (∀ t ∈ registry, t.sessionId ≠ s.sessionId →
          t ∈ (handleFirmwareCheck registry deviceId clientId fw newSid now).1)) ∧
      (s.firmwareInfo.version ≠ fw.version →
        handleFirmwareCheck registry deviceId clientId fw newSid now =
          (registry ++ [newSession newSid clientId deviceId fw now], newSid) ∧
        s ∈ (handleFirmwareCheck registry deviceId clientId fw newSid now).1 ∧
        s.completed = false ∧ s.deviceId = deviceId)) ∧
    (registry.find? (fun t => t.deviceId == deviceId && !t.completed) = none →
      handleFirmwareCheck registry deviceId clientId fw newSid now =
        (registry ++ [newSession newSid clientId deviceId fw now], newSid)) := by
  constructor
  · intro s hfind
    have hmem : s ∈ registry := List.mem_of_find?_eq_some hfind
    have hpred := List.find?_some hfind
    have hdev : s.deviceId = deviceId := by
      have := (Bool.and_eq_true _ _).mp hpred
      exact eq_of_beq this.1
    have hcomp : s.completed = false := by
      have := (Bool.and_eq_true _ _).mp hpred
      simpa using this.2
    constructor
    · intro hver
      have hbeq : (s.firmwareInfo.version == fw.version) = true := beq_iff_eq.mpr hver
      refine ⟨?_, ?_, ?_, ?_⟩
      · simp [handleFirmwareCheck, hfind, hbeq]
      · simp [handleFirmwareCheck, hfind, hbeq, updateSession]
      · simp only [handleFirmwareCheck, hfind, hbeq, if_true, updateSession]
        refine List.mem_map.mpr ⟨s, hmem, ?_⟩
        simp
      · intro t hmemt hne
        simp only [handleFirmwareCheck, hfind, hbeq, if_true, updateSession]
        refine List.mem_map.mpr ⟨t, hmemt, ?_⟩
        simp [beq_eq_false_iff_ne.mpr hne]
    · intro hver
      have hbeq : (s.firmwareInfo.version == fw.version) = false :=
        beq_eq_false_iff_ne.mpr hver
      refine ⟨?_, ?_, hcomp, hdev⟩
      · simp [handleFirmwareCheck, hfind, hbeq]
      · simp only [handleFirmwareCheck, hfind, hbeq, if_false, Bool.false_eq_true]
        exact List.mem_append_left _ hmem
  · intro hfind
    simp [handleFirmwareCheck, hfind]

/-- Witness for C3's amended claim: a device with one interrupted v1
session checks against the same version and resumes it; the same device
checking against v2 leaves the old session in the registry. -/
theorem check_resume_or_append_witness :
    (let fw1 : FirmwareInfo := ⟨"fw_v1.0.0.bin", "1.0.0", 2000, "m1", "h1"⟩
     let fw2 : FirmwareInfo := ⟨"fw_v2.0.0.bin", "2.0.0", 2000, "m2", "h2"⟩
     let s1 := { newSession "sid1" "cl" "dev" fw1 0 with interrupted := true }
     ((handleFirmwareCheck [s1] "dev" "cl" fw1 "sid9" 7).2 = "sid1" ∧
       { s1 with interrupted := false } ∈
         (handleFirmwareCheck [s1] "dev" "cl" fw1 "sid9" 7).1) ∧
     (handleFirmwareCheck [s1] "dev" "cl" fw2 "sid9" 7 =
        ([s1, newSession "sid9" "cl" "dev" fw2 7], "sid9") ∧
       s1 ∈ (handleFirmwareCheck [s1] "dev" "cl" fw2 "sid9" 7).1)) := by
  intro fw1 fw2 s1
  have h1 := check_resume_or_append [s1] "dev" "cl" fw1 "sid9" 7
  have h2 := check_resume_or_append [s1] "dev" "cl" fw2 "sid9" 7
  have hf1 := (h1.1 s1 (by decide)).1 (by decide)
  have hf2 := (h2.1 s1 (by decide)).2 (by decide)
  exact ⟨⟨hf1.1, hf1.2.2.1⟩, by simpa using ⟨hf2.1, hf2.2.1⟩⟩

/-! ### Claim C5: eviction sweep -/

/-- The sweep pass is the filter retaining the sessions that are not due
for eviction (helper for the C5 theorem). -/
theorem sweepSessions_eq_filter (now : Nat) (registry : List Session) :
    sweepSessions now registry =
      registry.filter (fun s => !shouldCleanup now s) := by
  suffices h : ∀ acc : List Session,
      registry.foldl
        (fun acc s => if shouldCleanup now s then acc else acc ++ [s]) acc =
      acc ++ registry.filter (fun s => !shouldCleanup now s) by
    simpa using h []
  induction registry with
  | nil => intro acc; simp
  | cons head tail ih =>
    intro acc
    by_cases h : shouldCleanup now head
    · simp [List.filter_cons, h, ih]
    · simp [List.filter_cons, h, ih]

def sessA : Session :=
  { sessionId := "A", clientId := "cA", deviceId := "dA"
    firmwareInfo := ⟨"fw_v1.0.0.bin", "1.0.0", 2000, "mA", "hA"⟩
    startTime := 900000, chunks := [], totalChunks := 4
    downloadedChunks := 4, lastOffset := 2000
    completed := true, interrupted := false, interruptedAt := 0 }

def sessB : Session :=
  { sessionId := "B", clientId := "cB", deviceId := "dB"
    firmwareInfo := ⟨"fw_v1.0.0.bin", "1.0.0", 2000, "mB", "hB"⟩
    startTime := 480000, chunks := [], totalChunks := 4
    downloadedChunks := 1, lastOffset := 512
    completed := false, interrupted := true, interruptedAt := 540000 }

def sessC : Session :=
  { sessionId := "C", clientId := "cC", deviceId := "dC"
    firmwareInfo := ⟨"fw_v1.0.0.bin", "1.0.0", 2000, "mC", "hC"⟩
    startTime := 1140000, chunks := [], totalChunks := 4
    downloadedChunks := 0, lastOffset := 0
    completed := false, interrupted := false, interruptedAt := 0 }

/-- A session survives the eviction condition exactly when none of the
three spec clauses holds (helper for the C5 theorem). -/
theorem shouldCleanup_false_iff (now : Nat) (s : Session) :
    (!shouldCleanup now s) = true ↔
      ¬(s.completed = true ∨
        (s.interrupted = true ∧ now - s.interruptedAt > INTERRUPTED_TIMEOUT) ∨
        now - s.startTime > SESSION_TIMEOUT) := by
  cases hcomp : s.completed <;> cases hint : s.interrupted <;>
    simp [shouldCleanup, hcomp, hint, not_or]

/-- Claim C5: a sweep at time `now` retains exactly the sessions that
are not completed, not interrupted past `INTERRUPTED_TIMEOUT`, and not
older than `SESSION_TIMEOUT` — equivalently it removes exactly the
completed, long-interrupted, or absolutely-timed-out sessions; and at
`now = 1200000` ms, with A completed, B interrupted 11 minutes earlier
and C active started 1 minute earlier, one sweep removes A and B and
retains C. -/
theorem sweep_evicts_exactly :
    (∀ (now : Nat) (registry : List Session) (s : Session),
      s ∈ sweepSessions now registry ↔
        s ∈ registry ∧
        ¬(s.completed = true ∨
          (s.interrupted = true ∧ now - s.interruptedAt > INTERRUPTED_TIMEOUT) ∨
          now - s.startTime > SESSION_TIMEOUT)) ∧
    sweepSessions 1200000 [sessA, sessB, sessC] = [sessC] := by
  constructor
  · intro now registry s
    rw [sweepSessions_eq_filter, List.mem_filter, shouldCleanup_false_iff]
  · decide

/-! ### Claim C7: verification -/

/-- Claim C7: `handleFirmwareVerify` compares the submitted hash
case-insensitively against the artifact digest of the requested kind
(sha256 when `hashType` is sha256, md5 otherwise); on a match the
session is marked completed, and on a mismatch the session object is
returned untouched, so a non-completed session stays non-completed and
open for a retry. -/
theorem verify_case_insensitive_match (s : Session)
    (clientHash hashType : String) :
    ((handleFirmwareVerify s clientHash hashType).2 = true ↔
      toLowerStr clientHash =
        toLowerStr (if hashType = "sha256" then s.firmwareInfo.sha256
                    else s.firmwareInfo.md5)) ∧
    ((handleFirmwareVerify s clientHash hashType).2 = true →
      (handleFirmwareVerify s clientHash hashType).1.completed = true) ∧
    ((handleFirmwareVerify s clientHash hashType).2 = false →
      (handleFirmwareVerify s clientHash hashType).1 = s) ∧
    ((handleFirmwareVerify s clientHash hashType).2 = false →
      s.completed = false →
      (handleFirmwareVerify s clientHash hashType).1.completed = false) := by
  by_cases hv : toLowerStr clientHash =
      toLowerStr (if hashType = "sha256" then s.firmwareInfo.sha256
                  else s.firmwareInfo.md5)
  · simp [handleFirmwareVerify, hv]
  · simp [handleFirmwareVerify, hv]

/-- Witness for C7 at a concrete session: an uppercase md5 submission
matches the stored lowercase digest and completes the session. -/
theorem verify_case_insensitive_match_witness :
    (handleFirmwareVerify
        { newSession "sid1" "cl" "dev" ⟨"f.bin", "1.0.0", 9, "ab12cd", "ff00"⟩ 0 with
          lastOffset := 9 } "AB12CD" "md5").2 = true ∧
    (handleFirmwareVerify
        { newSession "sid1" "cl" "dev" ⟨"f.bin", "1.0.0", 9, "ab12cd", "ff00"⟩ 0 with
          lastOffset := 9 } "AB12CD" "md5").1.completed = true := by
  have h := verify_case_insensitive_match
    { newSession "sid1" "cl" "dev" ⟨"f.bin", "1.0.0", 9, "ab12cd", "ff00"⟩ 0 with
      lastOffset := 9 } "AB12CD" "md5"
  have hv : (handleFirmwareVerify
      { newSession "sid1" "cl" "dev" ⟨"f.bin", "1.0.0", 9, "ab12cd", "ff00"⟩ 0 with
        lastOffset := 9 } "AB12CD" "md5").2 = true := h.1.mpr (by decide)
  exact ⟨hv, h.2.1 hv⟩

/-! ### Claim C8: interruption and resume frame conditions -/

/-- Claim C8: marking a session interrupted at `t0` changes only the
interruption flag and timestamp; the session survives a sweep at any
`t1 < t0 + INTERRUPTED_TIMEOUT` that is also within the absolute
timeout, and resuming then reports exactly the `lastOffset` and
`downloadedChunks` present at the drop without modifying either. -/
theorem interrupt_resume_preserves_progress (s : Session) (t0 t1 : Nat)
    (cid : String) (hnc : s.completed = false)
    (h1 : t1 < t0 + INTERRUPTED_TIMEOUT)
    (h2 : t1 ≤ s.startTime + SESSION_TIMEOUT) :
    (cleanupConnection s t0).lastOffset = s.lastOffset ∧
    (cleanupConnection s t0).downloadedChunks = s.downloadedChunks ∧
    (cleanupConnection s t0).chunks = s.chunks ∧
    (cleanupConnection s t0).sessionId = s.sessionId ∧
    (cleanupConnection s t0).deviceId = s.deviceId ∧
    (cleanupConnection s t0).clientId = s.clientId ∧
    (cleanupConnection s t0).firmwareInfo = s.firmwareInfo ∧
    (cleanupConnection s t0).startTime = s.startTime ∧
    (cleanupConnection s t0).totalChunks = s.totalChunks ∧
    (cleanupConnection s t0).completed = s.completed ∧
    (cleanupConnection s t0).interrupted = true ∧
    (cleanupConnection s t0).interruptedAt = t0 ∧
    shouldCleanup t1 (cleanupConnection s t0) = false ∧
    (handleDownloadResume (cleanupConnection s t0) cid).2.1 = s.lastOffset ∧
    (handleDownloadResume (cleanupConnection s t0) cid).2.2 = s.downloadedChunks ∧
    (handleDownloadResume (cleanupConnection s t0) cid).1.lastOffset = s.lastOffset ∧
    (handleDownloadResume (cleanupConnection s t0) cid).1.downloadedChunks =
      s.downloadedChunks := by
  refine ⟨rfl, rfl, rfl, rfl, rfl, rfl, rfl, rfl, rfl, rfl, rfl, rfl, ?_,
    rfl, rfl, rfl, rfl⟩
  simp [shouldCleanup, cleanupConnection, hnc]
  constructor <;> omega

/-- Witness for C8: a concrete active session with 512 bytes confirmed,
dropped at minute 1 and swept and resumed at minute 6. -/
theorem interrupt_resume_preserves_progress_witness :
    (let s := { newSession "sid1" "cl" "dev" ⟨"f.bin", "1.0.0", 2000, "m", "h"⟩ 0 with
                lastOffset := 512, downloadedChunks := 1 }
     shouldCleanup 360000 (cleanupConnection s 60000) = false ∧
     (handleDownloadResume (cleanupConnection s 60000) "cl2").2.1 = 512 ∧
     (handleDownloadResume (cleanupConnection s 60000) "cl2").2.2 = 1) := by
  intro s
  have h := interrupt_resume_preserves_progress s 60000 360000 "cl2"
    (by decide) (by decide) (by decide)
  exact ⟨h.2.2.2.2.2.2.2.2.2.2.2.2.1,
    h.2.2.2.2.2.2.2.2.2.2.2.2.2.1, h.2.2.2.2.2.2.2.2.2.2.2.2.2.2.1⟩

/-! ### Claim C4: adaptive chunk sizing

Lines of `handleFirmwareDownload` before the file read.  JS numbers are
modelled as `ℚ`: `chunkSize / 2` is exact rational division (halving an
odd integer gives a fractional size in JS as well), and the float
comparison `errorRate > 0.15` is modelled as the exact rational
comparison, which agrees with the double computation away from
ties (for the integer counts involved the two can only differ when
`retryCount / chunksRequested` is within double rounding error of
`0.15`, which no integer pair of realistic size attains other than
exact ties, where both comparisons are false). -/

def adaptChunkSize (requestedSize : ℚ) (chunksRequested retryCount : Nat) : ℚ :=
  let cs := if 5 < chunksRequested ∧
               (15 : ℚ) / 100 < (retryCount : ℚ) / (chunksRequested : ℚ)
            then max (MIN_CHUNK_SIZE : ℚ) (requestedSize / 2)
            else requestedSize
  max (MIN_CHUNK_SIZE : ℚ) (min cs (MAX_CHUNK_SIZE : ℚ))

/-- Claim C4, counterexample: the halving applies to each request's own
requested size — the server stores no per-connection chunk size — so
with the warm-up threshold passed and the retry ratio above `0.15` on
both requests (10 then 11 requests, 2 retries), a request for 128 bytes
is served 128 and a following request for 1024 bytes is served 512:
the served size grows after the ratio exceeded the threshold,
contradicting "every subsequently served chunk size is less than or
equal to the previously served chunk size". -/
theorem adapt_chunk_grows_counterexample :
    (5 < 10 ∧ (15 : ℚ) / 100 < (2 : ℚ) / (10 : ℚ)) ∧
    (5 < 11 ∧ (15 : ℚ) / 100 < (2 : ℚ) / (11 : ℚ)) ∧
    adaptChunkSize 128 10 2 = 128 ∧
    adaptChunkSize 1024 11 2 = 512 ∧
    ¬((512 : ℚ) ≤ 128) := by
  refine ⟨⟨by norm_num, by norm_num⟩, ⟨by norm_num, by norm_num⟩, ?_, ?_, by norm_num⟩
  · rw [adaptChunkSize, if_pos ⟨by norm_num, by norm_num⟩]
    norm_num [MIN_CHUNK_SIZE, MAX_CHUNK_SIZE]
  · rw [adaptChunkSize, if_pos ⟨by norm_num, by norm_num⟩]
    norm_num [MIN_CHUNK_SIZE, MAX_CHUNK_SIZE]

/-- Claim C4, amended: every computed chunk size lies in
`[MIN_CHUNK, MAX_CHUNK]` independently of the retry ratio; when the
warm-up threshold and the ratio condition hold, the served size is the
clamp of half of the request's own size — the halving is per-request
(no per-connection size is stored), so a later request with a larger
requested size may legitimately be served a larger chunk than its
predecessor. -/
theorem adapt_chunk_bounds (r : ℚ) (c k : Nat) :
    (MIN_CHUNK_SIZE : ℚ) ≤ adaptChunkSize r c k ∧
    adaptChunkSize r c k ≤ (MAX_CHUNK_SIZE : ℚ) ∧
    (5 < c → (15 : ℚ) / 100 < (k : ℚ) / (c : ℚ) →
      adaptChunkSize r c k =
        max (MIN_CHUNK_SIZE : ℚ)
          (min (max (MIN_CHUNK_SIZE : ℚ) (r / 2)) (MAX_CHUNK_SIZE : ℚ))) := by
  refine ⟨le_max_left _ _, ?_, ?_⟩
  · rw [adaptChunkSize]
    exact max_le (by norm_num [MIN_CHUNK_SIZE, MAX_CHUNK_SIZE]) (min_le_right _ _)
  · intro h1 h2
    rw [adaptChunkSize, if_pos ⟨h1, h2⟩]

/-- Witness for C4's amended claim at a triggered request: 11 requests,
2 retries, 1024 requested. -/
theorem adapt_chunk_bounds_witness :
    (MIN_CHUNK_SIZE : ℚ) ≤ adaptChunkSize 1024 11 2 ∧
    adaptChunkSize 1024 11 2 ≤ (MAX_CHUNK_SIZE : ℚ) ∧
    adaptChunkSize 1024 11 2 =
      max (MIN_CHUNK_SIZE : ℚ)
        (min (max (MIN_CHUNK_SIZE : ℚ) ((1024 : ℚ) / 2)) (MAX_CHUNK_SIZE : ℚ)) := by
  have h := adapt_chunk_bounds 1024 11 2
  exact ⟨h.1, h.2.1, h.2.2 (by norm_num) (by norm_num)⟩

/-! ### JSON header encoding and length-prefixed framing

`JSON.stringify` of the minimal header emits the fields in insertion
order with no whitespace; all field values here are non-negative
integers, so the serialized bytes are ASCII punctuation, the field-name
letters, and decimal digits — never the newline byte `0x0A`. -/

/-- Decimal ASCII digits, structurally recursive on a fuel bound so the
definition evaluates by kernel reduction; `n + 1` units of fuel always
suffice since the digit count of `n` is at most `n + 1`. -/
def natDigitsAux (fuel n : Nat) : List Nat :=
  match fuel with
  | 0 => []
  | fuel + 1 =>
    if n < 10 then [48 + n]
    else natDigitsAux fuel (n / 10) ++ [48 + n % 10]

/-- Decimal ASCII digits of `n`, the bytes `JSON.stringify` emits for a
non-negative integer. -/
def natDigits (n : Nat) : List Nat := natDigitsAux (n + 1) n

/-- Digits are the ASCII codes 48 through 57. -/
theorem natDigitsAux_bounds (fuel : Nat) :
    ∀ n, ∀ b ∈ natDigitsAux fuel n, 48 ≤ b ∧ b ≤ 57 := by
  induction fuel with
  | zero =>
    intro n b hb
    simp [natDigitsAux] at hb
  | succ fuel ih =>
    intro n b hb
    by_cases h : n < 10
    · simp [natDigitsAux, h] at hb
      omega
    · simp only [natDigitsAux, if_neg h, List.mem_append] at hb
      rcases hb with h1 | h1
      · exact ih _ b h1
      · simp at h1
        omega

/-- Digits of `natDigits` are the ASCII codes 48 through 57. -/
theorem natDigits_bounds (n : Nat) : ∀ b ∈ natDigits n, 48 ≤ b ∧ b ≤ 57 :=
  natDigitsAux_bounds (n + 1) n

/-- The chunk response header, fields in the order `JSON.stringify`
serializes them. -/
structure ChunkHeader where
  s : Nat
  o : Nat
  c : Nat
  f : Nat
  p : Nat
  id : Nat
  h : Nat
  deriving Repr, DecidableEq

/-- Serialized header bytes up to and including the `id` value; byte
values: 123 `{ `, 34 `"`, 58 `:`, 44 `,`, and the ASCII field-name
letters. -/
def headerCore (s o c f p i : Nat) : List Nat :=
  [123, 34, 115, 34, 58] ++ natDigits s ++
  [44, 34, 111, 34, 58] ++ natDigits o ++
  [44, 34, 99, 34, 58] ++ natDigits c ++
  [44, 34, 102, 34, 58] ++ natDigits f ++
  [44, 34, 112, 34, 58] ++ natDigits p ++
  [44, 34, 105, 100, 34, 58] ++ natDigits i

/-- `JSON.stringify(minimalHeader)` before the `h` field is appended:
the input of the header CRC. -/
def headerBytesNoH (s o c f p i : Nat) : List Nat :=
  headerCore s o c f p i ++ [125]

/-- `JSON.stringify(minimalHeader)` with the `h` field appended: the
header line put on the wire (without its terminating newline). -/
def headerBytes (hd : ChunkHeader) : List Nat :=
  headerCore hd.s hd.o hd.c hd.f hd.p hd.id ++
    [44, 34, 104, 34, 58] ++ natDigits hd.h ++ [125]

/-- The serialized header never contains the newline byte. -/
theorem headerBytes_no_newline (hd : ChunkHeader) :
    ∀ b ∈ headerBytes hd, b ≠ 10 := by
  intro b hb
  simp only [headerBytes, headerCore, List.append_assoc, List.mem_append] at hb
  rcases hb with h | h | h | h | h | h | h | h | h | h | h | h | h | h | h <;>
    first
      | (have hbd := natDigits_bounds _ _ h; omega)
      | (simp at h; omega)

/-- `sendTcpResponseWithLengthPrefix`: the socket write is the header
line, the newline terminator, then the raw binary payload with no
further delimiter. -/
def sendTcpLengthPrefixedResponse (hd : ChunkHeader) (binaryData : List Nat) :
    List Nat :=
  headerBytes hd ++ 10 :: binaryData

/-- The reader's first step: split the byte stream at the first newline
into the header line and the remainder. -/
def splitFirstLine : List Nat → Option (List Nat × List Nat)
  | [] => none
  | b :: rest =>
    if b = 10 then some ([], rest)
    else (splitFirstLine rest).map (fun pr => (b :: pr.1, pr.2))

/-- Splitting at the first newline of `pre ++ newline ++ post` recovers
`pre` and `post` whenever `pre` is newline-free. -/
theorem splitFirstLine_append (pre post : List Nat)
    (hpre : ∀ b ∈ pre, b ≠ 10) :
    splitFirstLine (pre ++ 10 :: post) = some (pre, post) := by
  induction pre with
  | nil => simp [splitFirstLine]
  | cons b rest ih =>
    have hb : b ≠ 10 := hpre b (by simp)
    simp [splitFirstLine, hb, ih (fun x hx => hpre x (by simp [hx]))]

/-! ### The download handler (`handleFirmwareDownload`)

The request carries `sessionId`, `offset`, `size` and the compression
flag; `chunksRequested` is the owning connection's request counter and
`retryCount` the global retry metric; `file` is the artifact's byte
content; `gzip` abstracts `zlib.gzipSync`.  Sizes are modelled as `Nat`
(`size / 2` flooring: for an odd triggered size JS produces a
fractional length whose `Buffer.alloc` throws inside the read, a path
that lands in the same `READ_ERROR` branch modelled by `none`). -/

structure DownloadRequest where
  sessionId : String
  offset : Nat
  size : Nat
  compression : Bool
  deriving Repr, DecidableEq

inductive DownloadResult where
  | invalidSession : DownloadResult
  | readError : DownloadResult
  | chunk : ChunkHeader → List Nat → DownloadResult
  deriving Repr, DecidableEq

/-- The handler's chunk-size lines over `Nat` (the device requests
integral sizes; see `adaptChunkSize` for the exact `ℚ` semantics). -/
def adaptChunkSizeFloor (requestedSize chunksRequested retryCount : Nat) : Nat :=
  let size1 := if 5 < chunksRequested ∧
                  (15 : ℚ) / 100 < (retryCount : ℚ) / (chunksRequested : ℚ)
               then max MIN_CHUNK_SIZE (requestedSize / 2) else requestedSize
  max MIN_CHUNK_SIZE (min size1 MAX_CHUNK_SIZE)

def handleFirmwareDownload (registry : List Session) (req : DownloadRequest)
    (chunksRequested retryCount : Nat) (file : List Nat)
    (gzip : List Nat → List Nat) (now : Nat) :
    List Session × DownloadResult :=
  match registry.find? (fun s => s.sessionId == req.sessionId) with
  | none => (registry, .invalidSession)
  | some session =>
    match getFirmwareChunk file req.offset
        (adaptChunkSizeFloor req.size chunksRequested retryCount) with
    | none => (registry, .readError)
    | some fd =>
      let dataCrc16 := calculateCRC16 fd.chunk
      let compressed := req.compression && decide (100 < fd.chunk.length) &&
        decide (100 * (gzip fd.chunk).length < 85 * fd.chunk.length)
      let finalChunk := if compressed then gzip fd.chunk else fd.chunk
      let fflag : Nat := if compressed then 1 else 0
      let pval := (req.offset + fd.actualSize) * 100 / fd.totalSize
      let idv := if 255 < session.totalChunks then req.offset / DEFAULT_CHUNK_SIZE
                 else (req.offset / DEFAULT_CHUNK_SIZE) &&& 0xFF
      let hcrc := calculateCRC16
        (headerBytesNoH finalChunk.length req.offset dataCrc16 fflag pval idv)
      (updateSession registry req.sessionId (fun s =>
        { s with
          chunks := setChunk s.chunks req.offset
            ⟨req.offset, fd.actualSize, dataCrc16, now⟩
          downloadedChunks := s.downloadedChunks + 1
          lastOffset := max s.lastOffset (req.offset + fd.actualSize) }),
       .chunk ⟨finalChunk.length, req.offset, dataCrc16, fflag, pval, idv, hcrc⟩
         finalChunk)

/-- Claim C1: every successful download response is the serialized
header line, a newline, then exactly `hd.s` raw payload bytes, with
`hd.s` equal to the byte length of the payload actually appended
(post-compression); since the header line itself is newline-free, a
reader that splits at the first newline and then consumes exactly
`hd.s` bytes recovers the payload and lands on the start of whatever
follows, even when the payload contains the newline byte. -/
theorem download_length_prefix_framing (registry : List Session)
    (req : DownloadRequest) (chunksRequested retryCount : Nat)
    (file : List Nat) (gzip : List Nat → List Nat) (now : Nat)
    (reg' : List Session) (hd : ChunkHeader) (payload tail : List Nat)
    (hres : handleFirmwareDownload registry req chunksRequested retryCount
              file gzip now = (reg', .chunk hd payload)) :
    hd.s = payload.length ∧
    splitFirstLine (sendTcpLengthPrefixedResponse hd payload ++ tail) =
      some (headerBytes hd, payload ++ tail) ∧
    (payload ++ tail).take hd.s = payload ∧
    (payload ++ tail).drop hd.s = tail := by
  have hs : hd.s = payload.length := by
    unfold handleFirmwareDownload at hres
    rcases hfind : registry.find? (fun s => s.sessionId == req.sessionId)
        with _ | session <;> rw [hfind] at hres
    · simp at hres
    · rcases hfd : getFirmwareChunk file req.offset
          (adaptChunkSizeFloor req.size chunksRequested retryCount)
          with _ | fd <;> rw [hfd] at hres
      · simp at hres
      · simp only [Prod.mk.injEq, DownloadResult.chunk.injEq] at hres
        obtain ⟨-, hh, hp⟩ := hres
        rw [← hh, ← hp]
  refine ⟨hs, ?_, ?_, ?_⟩
  · rw [sendTcpLengthPrefixedResponse, List.append_assoc]
    exact splitFirstLine_append _ _ (headerBytes_no_newline hd)
  · rw [hs, List.take_left]
  · rw [hs, List.drop_left]

/-- Claim C10: a download request that fails — unknown session id
(`INVALID_SESSION`) or failed chunk read (`READ_ERROR`) — returns its
error before any session mutation, so the registry after the failed
request is exactly the registry before it. -/
theorem download_error_frame (registry : List Session)
    (req : DownloadRequest) (chunksRequested retryCount : Nat)
    (file : List Nat) (gzip : List Nat → List Nat) (now : Nat)
    (reg' : List Session) (res : DownloadResult)
    (heq : handleFirmwareDownload registry req chunksRequested retryCount
             file gzip now = (reg', res))
    (herr : res = .invalidSession ∨ res = .readError) :
    reg' = registry ∧ (∀ s : Session, s ∈ reg' ↔ s ∈ registry) := by
  have hreg : reg' = registry := by
    unfold handleFirmwareDownload at heq
    rcases hfind : registry.find? (fun s => s.sessionId == req.sessionId)
        with _ | session <;> rw [hfind] at heq
    · simp only [Prod.mk.injEq] at heq
      exact heq.1.symm
    · rcases hfd : getFirmwareChunk file req.offset
          (adaptChunkSizeFloor req.size chunksRequested retryCount)
          with _ | fd <;> rw [hfd] at heq
      · simp only [Prod.mk.injEq] at heq
        exact heq.1.symm
      · exfalso
        simp only [Prod.mk.injEq] at heq
        rcases herr with h | h <;> rw [← heq.2] at h <;> simp at h
  exact ⟨hreg, fun s => by rw [hreg]⟩

def sessW : Session :=
  { newSession "sid1" "cl" "dev" ⟨"f.bin", "1.0.0", 2000, "m", "h"⟩ 0 with
    lastOffset := 0 }

def sessW' : Session :=
  { sessW with
    chunks := [(0, ⟨0, 3, 41318, 5⟩)], downloadedChunks := 1, lastOffset := 3 }

def hdW : ChunkHeader := ⟨3, 0, 41318, 0, 100, 0, 57527⟩

/-- Witness for C1 at a concrete session and three-byte file whose
payload contains the newline byte: the response header carries `s = 3`
and a reader that takes 3 bytes after the header line recovers the
payload and lands on the following byte. -/
theorem download_length_prefix_framing_witness :
    handleFirmwareDownload [sessW] ⟨"sid1", 0, 200, false⟩ 1 0 [1, 10, 3]
        (fun l => l) 5 = ([sessW'], .chunk hdW [1, 10, 3]) ∧
    hdW.s = ([1, 10, 3] : List Nat).length ∧
    splitFirstLine (sendTcpLengthPrefixedResponse hdW [1, 10, 3] ++ [99]) =
      some (headerBytes hdW, [1, 10, 3, 99]) ∧
    ([1, 10, 3, 99] : List Nat).take hdW.s = [1, 10, 3] ∧
    ([1, 10, 3, 99] : List Nat).drop hdW.s = [99] := by
  have heq : handleFirmwareDownload [sessW] ⟨"sid1", 0, 200, false⟩ 1 0
      [1, 10, 3] (fun l => l) 5 = ([sessW'], .chunk hdW [1, 10, 3]) := by
    decide
  have h := download_length_prefix_framing _ _ _ _ _ _ _ _ _ _ [99] heq
  exact ⟨heq, h.1, h.2.1, h.2.2.1, h.2.2.2⟩

/-- Witness for C10: an out-of-range offset on a live session yields
`READ_ERROR` and the registry is returned unchanged. -/
theorem download_error_frame_witness :
    handleFirmwareDownload [sessW] ⟨"sid1", 99, 200, false⟩ 1 0 [1, 10, 3]
        (fun l => l) 5 = ([sessW], .readError) ∧
    ([sessW] : List Session) = [sessW] := by
  have heq : handleFirmwareDownload [sessW] ⟨"sid1", 99, 200, false⟩ 1 0
      [1, 10, 3] (fun l => l) 5 = ([sessW], .readError) := by
    decide
  exact ⟨heq, (download_error_frame _ _ _ _ _ _ _ _ _ heq (Or.inr rfl)).1⟩

/-! ### Claim C9: the device client's update decision

`FotaSIM800L::checkForUpdates` parses the check response, stores
`version`, `size` and `md5`, and reports an available update exactly
when the response status is the success string and the reported version
differs from the running version — a string inequality, not a semantic
newer-than comparison; the response's `resumeOffset` field is never
read.  `FotaSIM800L::downloadAndApplyUpdate` then always starts from
`current_offset = 0`. -/

structure CheckResponse where
  status : String
  version : String
  size : Nat
  md5 : String
  resumeOffset : Nat
  deriving Repr, DecidableEq

def checkForUpdates (currentVersion : String) (resp : CheckResponse) : Bool :=
  if resp.status != "success" then false
  else if resp.version == currentVersion then false
  else true

/-- `downloadAndApplyUpdate` entry: `current_offset = 0` and the first
requested chunk size `min(BUFFER_SIZE, total_size - current_offset)`. -/
def downloadAndApplyUpdateInit (totalSize bufferSize : Nat) : Nat × Nat :=
  (0, min bufferSize (totalSize - 0))

/-- Structural splitter of a character list at dots (helper for the
spec-modelled version order). -/
def splitOnDot (cs : List Char) : List (List Char) :=
  match cs with
  | [] => [[]]
  | ch :: rest =>
    let r := splitOnDot rest
    if ch = '.' then [] :: r
    else
      match r with
      | [] => [[ch]]
      | g :: gs => (ch :: g) :: gs

def digitsToNat (cs : List Char) : Nat :=
  cs.foldl (fun a ch => a * 10 + (ch.toNat - 48)) 0

/-- Modelled from the spec: the claim's "newer version" relation on
`major.minor.patch` strings (componentwise lexicographic order) —
missing from the device client source, which only compares version
strings for equality; this definition exists to state what the claim
asserts and what the counterexample refutes. -/
def parseVersion (v : String) : Nat × Nat × Nat :=
  match (splitOnDot v.data).map digitsToNat with
  | [a, b, c] => (a, b, c)
  | _ => (0, 0, 0)

/-- Modelled from the spec: `versionNewer v cur` holds when `v` is
strictly newer than `cur` under the `major.minor.patch` order. -/
def versionNewer (v cur : String) : Bool :=
  let pv := parseVersion v
  let pc := parseVersion cur
  decide (pc.1 < pv.1 ∨ (pc.1 = pv.1 ∧
    (pc.2.1 < pv.2.1 ∨ (pc.2.1 = pv.2.1 ∧ pc.2.2 < pv.2.2))))

/-- Claim C9, counterexample: a successful check response reporting
version 1.0.0 to a device running 2.0.0 — not a newer version — still
makes the client download, and it starts at offset 0 although the
response carries `resumeOffset = 512`. -/
theorem client_downloads_older_version :
    (let resp : CheckResponse := ⟨"success", "1.0.0", 2000, "m", 512⟩
     checkForUpdates "2.0.0" resp = true ∧
     versionNewer resp.version "2.0.0" = false ∧
     (downloadAndApplyUpdateInit resp.size 512).1 = 0 ∧
     resp.resumeOffset = 512 ∧
     (downloadAndApplyUpdateInit resp.size 512).1 ≠ resp.resumeOffset) := by
  decide

/-- Claim C9, amended: after a check response the client starts
downloading exactly when the status is the success string and the
reported version differs from the device's current version as a string
(even when it is older), and the download then begins at
`currentOffset = 0` regardless of the response's `resumeOffset`; when
the reported version equals the current version the client reports no
update and does not download. -/
theorem client_update_decision (currentVersion : String)
    (resp : CheckResponse) (bufferSize : Nat) :
    (checkForUpdates currentVersion resp = true ↔
      resp.status = "success" ∧ resp.version ≠ currentVersion) ∧
    (downloadAndApplyUpdateInit resp.size bufferSize).1 = 0 := by
  constructor
  · by_cases h1 : resp.status = "success" <;>
      by_cases h2 : resp.version = currentVersion <;>
        simp [checkForUpdates, h1, h2]
  · rfl

end Fota
